import Mathlib

/-!
The value type `math::Complex` of Computational_Mathematics_1/C++/complex.cpp.

A shallow embedding of the complex-number value type of `complex.cpp`.

* `double` is a type parameter `α`; every definition asks only for the
  arithmetic operations its C++ body uses, so the definitions are the C++
  expressions read over an arbitrary number type.
* `std::sqrt` and `std::atan2` come from `<cmath>`, not from the repository;
  the functions that call them (`length`, `angle`, `operator/`) take them as
  an argument.
* The theorems read the components as real numbers: `α := ℝ`,
  `std::sqrt := Real.sqrt`, `std::atan2 := std.atan2` below.
* Where a statement is about the non-finite values, the rounding, the overflow
  or the underflow of `double`, the components are read in `ieee.Double`, a
  model of IEEE-754 binary64 with `std::sqrt := ieee.Double.sqrt`.
* All members defined in `complex.cpp` are `const` members taking
  `const Complex&`; they are embedded as pure functions of the receiver
  (`self`) and the argument.
-/

namespace std

/-- Modelled from the spec: `std::atan2` of `<cmath>` (not part of the
repository), read over the real numbers.  It is the two-argument arctangent,
the principal argument of the point `(x, y)`, with the value `0` at the
origin. -/
noncomputable def atan2 (y x : ℝ) : ℝ :=
  if 0 < x then Real.arctan (y / x)
  else if x < 0 then
    (if 0 ≤ y then Real.arctan (y / x) + Real.pi else Real.arctan (y / x) - Real.pi)
  else if 0 < y then Real.pi / 2
  else if y < 0 then -(Real.pi / 2)
  else 0

end std

namespace ieee

/-- Modelled from the spec: the type `double`, which the spec fixes as an
IEEE-754 double-precision value with the standard floating-point semantics
(infinities and NaN included).  A finite value is `± k · 2^-1074` (`neg` is the
sign bit, so `fin true 0` is `-0.0`); every finite double has this form, the
unit `2^-1074` being the smallest subnormal.  The operations below round to
nearest, ties to even. -/
inductive Double where
  | fin (neg : Bool) (k : Nat)
  | inf (neg : Bool)
  | nan
deriving DecidableEq

namespace Double

/-- The integer nearest to `n / d`, ties to the even one (`d` positive). -/
def roundNE (n d : Nat) : Nat :=
  let q := n / d
  let r := n % d
  if 2 * r < d then q
  else if d < 2 * r then q + 1
  else if q % 2 = 0 then q else q + 1

/-- How many low bits a magnitude of `q` units has beyond the 53 bits a double
keeps: the number of halvings that bring `q` below `2^53` (the first argument
bounds the recursion). -/
def excessBits : Nat → Nat → Nat
  | 0, _ => 0
  | fuel + 1, q => if q < 2 ^ 53 then 0 else excessBits fuel (q / 2) + 1

/-- Round-to-nearest-even of the magnitude `n / d` (in units of `2^-1074`) to
binary64: 53 significant bits, spacing one unit below `2^53` units, overflow to
infinity from `2^1024 = 2^2098` units on. -/
def roundMag (neg : Bool) (n d : Nat) : Double :=
  let sh := excessBits (n / d) (n / d)
  let k := roundNE n (d * 2 ^ sh) * 2 ^ sh
  if k < 2 ^ 2098 then fin neg k else inf neg

/-- Unary minus: flips the sign bit. -/
def neg : Double → Double
  | fin s k => fin (!s) k
  | inf s => inf (!s)
  | nan => nan

/-- Sum of two finite values; an exact zero sum of opposite signs is `+0.0`. -/
def addFin (sx : Bool) (kx : Nat) (sy : Bool) (ky : Nat) : Double :=
  if sx = sy then roundMag sx (kx + ky) 1
  else if kx = ky then fin false 0
  else if ky < kx then roundMag sx (kx - ky) 1
  else roundMag sy (ky - kx) 1

/-- Addition. -/
def add : Double → Double → Double
  | fin s k, fin t j => addFin s k t j
  | fin _ _, inf t => inf t
  | inf s, fin _ _ => inf s
  | inf s, inf t => if s = t then inf s else nan
  | _, _ => nan

/-- Subtraction: `x - y` is `x + (-y)`. -/
def sub (x y : Double) : Double :=
  add x (neg y)

/-- Multiplication. -/
def mul : Double → Double → Double
  | fin s k, fin t j => roundMag (s != t) (k * j) (2 ^ 1074)
  | fin s k, inf t => if k = 0 then nan else inf (s != t)
  | inf s, fin t j => if j = 0 then nan else inf (s != t)
  | inf s, inf t => inf (s != t)
  | _, _ => nan

/-- Division. -/
def div : Double → Double → Double
  | fin s k, fin t j =>
    if j = 0 then (if k = 0 then nan else inf (s != t))
    else roundMag (s != t) (k * 2 ^ 1074) j
  | fin s _, inf t => fin (s != t) 0
  | inf s, fin t _ => inf (s != t)
  | _, _ => nan

/-- How many times a radicand of `n` units must be divided by 4 to fall below
`2^106`, so that its square root falls below `2^53` (the first argument bounds
the recursion). -/
def excessPairs : Nat → Nat → Nat
  | 0, _ => 0
  | fuel + 1, n => if n < 2 ^ 106 then 0 else excessPairs fuel (n / 4) + 1

/-- The value of `std::sqrt`: the square root, correctly rounded (to nearest,
ties to even).  For `k` units the root is `√(k · 2^1074)` units; `m` is its
integer part at the spacing `2^sh` and the comparison of `4n` with
`(2m + 1)² · 4^sh` decides on which side of the midpoint the root lies. -/
def sqrt : Double → Double
  | fin s k =>
    if k = 0 then fin s 0
    else if s then nan
    else
      let n := k * 2 ^ 1074
      let sh := excessPairs n n
      let m := Nat.sqrt (n / 4 ^ sh)
      let c := (2 * m + 1) ^ 2 * 4 ^ sh
      let m := if 4 * n < c then m else if c < 4 * n then m + 1
        else if m % 2 = 0 then m else m + 1
      fin false (m * 2 ^ sh)
  | inf s => if s then nan else inf false
  | nan => nan

/-- A decimal literal `m · 10^±e`, rounded. -/
def ofScientific (m : Nat) (s : Bool) (e : Nat) : Double :=
  if s then roundMag false (m * 2 ^ 1074) (10 ^ e)
  else roundMag false (m * 10 ^ e * 2 ^ 1074) 1

/-- `std::isfinite`. -/
def isFinite : Double → Bool
  | fin _ _ => true
  | _ => false

/-- The comparison `x == 0.0`, true of both zeros. -/
def isZero : Double → Bool
  | fin _ k => k == 0
  | _ => false

/-- The finite values of the carrier that are doubles: below `2^1024` and with
at most 53 significant bits. -/
def representable : Double → Bool
  | fin _ k => decide (k < 2 ^ 2098) && k % 2 ^ excessBits k k == 0
  | _ => true

instance : Neg Double := ⟨neg⟩
instance : Add Double := ⟨add⟩
instance : Sub Double := ⟨sub⟩
instance : Mul Double := ⟨mul⟩
instance : Div Double := ⟨div⟩
instance : OfScientific Double := ⟨ofScientific⟩

end Double

end ieee

namespace math

/-- `class Complex` of `complex.hpp`: the two private fields `_real`, `_imag`. -/
structure Complex (α : Type) where
  _real : α
  _imag : α

namespace Complex

variable {α : Type} [OfScientific α] [Neg α] [Add α] [Sub α] [Mul α] [Div α]

/-- `Complex::Complex(): _real(0.0), _imag(0.0) {}` -/
def Complex0 : Complex α :=
  { _real := 0.0, _imag := 0.0 }

/-- `Complex::Complex(const double value): _real(value), _imag(value) {}` -/
def Complex1 (value : α) : Complex α :=
  { _real := value, _imag := value }

/-- `Complex::Complex(const double real, const double imag): _real(real), _imag(imag) {}` -/
def Complex2 (real imag : α) : Complex α :=
  { _real := real, _imag := imag }

/-- `double Complex::real() const` -/
def real (self : Complex α) : α :=
  self._real

/-- `double Complex::imag() const` -/
def imag (self : Complex α) : α :=
  self._imag

/-- `double Complex::angle() const`: `return std::atan2(_imag, _real);` -/
def angle (atan2 : α → α → α) (self : Complex α) : α :=
  atan2 self._imag self._real

/-- `double Complex::length() const`:
`return std::sqrt(_real * _real + _imag * _imag);` -/
def length (sqrt : α → α) (self : Complex α) : α :=
  sqrt (self._real * self._real + self._imag * self._imag)

/-- `Complex Complex::conjugate() const`:
`return Complex(_real, -1.0 * _imag);` -/
def conjugate (self : Complex α) : Complex α :=
  Complex2 self._real (-1.0 * self._imag)

/-- `Complex Complex::operator+(const Complex& rhs) const` -/
def operator_add (self rhs : Complex α) : Complex α :=
  Complex2 (self._real + rhs._real) (self._imag + rhs._imag)

/-- `Complex Complex::operator-(const Complex& rhs) const` -/
def operator_sub (self rhs : Complex α) : Complex α :=
  Complex2 (self._real - rhs._real) (self._imag - rhs._imag)

/-- `Complex Complex::operator*(const Complex& rhs) const` -/
def operator_mul (self rhs : Complex α) : Complex α :=
  Complex2 (self._real * rhs._real - self._imag * rhs._imag)
    (self._real * rhs._imag + self._imag * rhs._real)

/-- `Complex Complex::operator/(const Complex& rhs) const`:
the local `length` is first `rhs.length()`, then squared by `length *= length`;
`-1.0 * rhs._imag / length` groups as `(-1.0 * rhs._imag) / length`. -/
def operator_div (sqrt : α → α) (self rhs : Complex α) : Complex α :=
  let length := rhs.length sqrt
  let length := length * length
  let inv := Complex2 (rhs._real / length) (-1.0 * rhs._imag / length)
  operator_mul self inv

/-- The inverse as the specification words it:
`inverse(b) = (b.real / L, -b.imag / L)` with `L = b.length() * b.length()`. -/
def inverse_spec (sqrt : α → α) (b : Complex α) : Complex α :=
  { _real := b._real / (b.length sqrt * b.length sqrt),
    _imag := -b._imag / (b.length sqrt * b.length sqrt) }

/-- The quotient as the textbook writes it:
`((a.real*b.real + a.imag*b.imag) / d, (a.imag*b.real - a.real*b.imag) / d)`
with `d = b.real^2 + b.imag^2`. -/
def quotient_textbook [HPow α Nat α] (a b : Complex α) : Complex α :=
  let d := b._real ^ 2 + b._imag ^ 2
  { _real := (a._real * b._real + a._imag * b._imag) / d,
    _imag := (a._imag * b._real - a._real * b._imag) / d }

/-! Members declared in `complex.hpp` and not defined in `complex.cpp`: the
scalar overloads of the binary operators and the compound assignments. -/

/-- Modelled from the spec: `Complex operator+(const double scale) const`, declared
in `complex.hpp` with no definition in `complex.cpp`.  The spec gives
`(a.real+s, a.imag+s)`: the scalar is added to both components. -/
def operator_add_scalar (self : Complex α) (scale : α) : Complex α :=
  Complex2 (self._real + scale) (self._imag + scale)

/-- Modelled from the spec: `Complex operator-(const double scale) const`, declared
in `complex.hpp` with no definition in `complex.cpp`.  The spec gives
`(a.real-s, a.imag-s)`. -/
def operator_sub_scalar (self : Complex α) (scale : α) : Complex α :=
  Complex2 (self._real - scale) (self._imag - scale)

/-- Modelled from the spec: `Complex operator*(const double scale) const`, declared
in `complex.hpp` with no definition in `complex.cpp`.  The spec gives
`(a.real*s, a.imag*s)`. -/
def operator_mul_scalar (self : Complex α) (scale : α) : Complex α :=
  Complex2 (self._real * scale) (self._imag * scale)

/-- Modelled from the spec: `Complex operator/(const double scale) const`, declared
in `complex.hpp` with no definition in `complex.cpp`.  The spec gives
`(a.real/s, a.imag/s)`. -/
def operator_div_scalar (self : Complex α) (scale : α) : Complex α :=
  Complex2 (self._real / scale) (self._imag / scale)

/-- What a compound assignment `a op= x` leaves behind: the receiver as it
stands after the call, and the value read through the returned `Complex&`. -/
structure Assigned (α : Type) where
  receiver : Complex α
  returned : Complex α

/-- Modelled from the spec: `Complex& operator+=(const Complex& rhs)`, declared in
`complex.hpp` with no definition in `complex.cpp`.  The spec: mutate the
receiver in place to the result of the corresponding binary operator, then
return a reference to the mutated receiver. -/
def operator_add_assign (self rhs : Complex α) : Assigned α :=
  let self := operator_add self rhs
  { receiver := self, returned := self }

/-- Modelled from the spec: `Complex& operator+=(const double scale)`, declared in
`complex.hpp` with no definition in `complex.cpp`; as `operator_add_assign`,
with the scalar overload of `+`. -/
def operator_add_assign_scalar (self : Complex α) (scale : α) : Assigned α :=
  let self := operator_add_scalar self scale
  { receiver := self, returned := self }

/-- Modelled from the spec: `Complex& operator-=(const Complex& rhs)`, declared in
`complex.hpp` with no definition in `complex.cpp`; as `operator_add_assign`,
with `-`. -/
def operator_sub_assign (self rhs : Complex α) : Assigned α :=
  let self := operator_sub self rhs
  { receiver := self, returned := self }

/-- Modelled from the spec: `Complex& operator-=(const double scale)`, declared in
`complex.hpp` with no definition in `complex.cpp`; as `operator_add_assign`,
with the scalar overload of `-`. -/
def operator_sub_assign_scalar (self : Complex α) (scale : α) : Assigned α :=
  let self := operator_sub_scalar self scale
  { receiver := self, returned := self }

/-- Modelled from the spec: `Complex& operator*=(const Complex& rhs)`, declared in
`complex.hpp` with no definition in `complex.cpp`; as `operator_add_assign`,
with `*`. -/
def operator_mul_assign (self rhs : Complex α) : Assigned α :=
  let self := operator_mul self rhs
  { receiver := self, returned := self }

/-- Modelled from the spec: `Complex& operator*=(const double scale)`, declared in
`complex.hpp` with no definition in `complex.cpp`; as `operator_add_assign`,
with the scalar overload of `*`. -/
def operator_mul_assign_scalar (self : Complex α) (scale : α) : Assigned α :=
  let self := operator_mul_scalar self scale
  { receiver := self, returned := self }

/-- Modelled from the spec: `Complex& operator/=(const Complex& rhs)`, declared in
`complex.hpp` with no definition in `complex.cpp`; as `operator_add_assign`,
with `/`. -/
def operator_div_assign (sqrt : α → α) (self rhs : Complex α) : Assigned α :=
  let self := operator_div sqrt self rhs
  { receiver := self, returned := self }

/-- Modelled from the spec: `Complex& operator/=(const double scale)`, declared in
`complex.hpp` with no definition in `complex.cpp`; as `operator_add_assign`,
with the scalar overload of `/`. -/
def operator_div_assign_scalar (self : Complex α) (scale : α) : Assigned α :=
  let self := operator_div_scalar self scale
  { receiver := self, returned := self }

end Complex

variable {α : Type} [OfScientific α]

/-- `const Complex I = Complex(0.0, 1.0);` -/
def I : Complex α :=
  Complex.Complex2 0.0 1.0

end math

namespace math

namespace Complex

/-! ## Auxiliary facts -/

/-- The literal `-1.0` is the real number `-1`. -/
theorem neg_one_lit : (-1.0 : ℝ) = -1 := by
  norm_num

/-- Over the reals `length() * length()` is the sum of the squared components. -/
theorem length_mul_length (z : Complex ℝ) :
    z.length Real.sqrt * z.length Real.sqrt = z._real * z._real + z._imag * z._imag := by
  unfold length
  exact Real.mul_self_sqrt (add_nonneg (mul_self_nonneg _) (mul_self_nonneg _))

/-- If `length()` is not zero then the sum of the squared components is not zero. -/
theorem sumsq_ne_zero_of_length_ne_zero (z : Complex ℝ) (h : z.length Real.sqrt ≠ 0) :
    z._real * z._real + z._imag * z._imag ≠ 0 := by
  intro h0
  apply h
  unfold length
  rw [h0, Real.sqrt_zero]

end Complex

end math

namespace std

/-- The real two-argument arctangent lies in `(-π, π]`. -/
theorem atan2_mem_range (y x : ℝ) : -Real.pi < atan2 y x ∧ atan2 y x ≤ Real.pi := by
  have hpi := Real.pi_pos
  have hlo := Real.neg_pi_div_two_lt_arctan (y / x)
  have hhi := Real.arctan_lt_pi_div_two (y / x)
  unfold atan2
  split_ifs with h1 h2 h3 h4 h5
  · constructor <;> linarith
  · have hle : Real.arctan (y / x) ≤ 0 := by
      rw [← Real.arctan_zero]
      exact Real.arctan_strictMono.monotone (div_nonpos_of_nonneg_of_nonpos h3 h2.le)
    constructor <;> linarith
  · have hpos : 0 < Real.arctan (y / x) := by
      rw [← Real.arctan_zero]
      exact Real.arctan_strictMono (div_pos_of_neg_of_neg (not_le.mp h3) h2)
    constructor <;> linarith
  · constructor <;> linarith
  · constructor <;> linarith
  · constructor <;> linarith

/-- For `x ≠ 0` the distance of `(x, y)` from the origin factors through the
slope `y / x`. -/
theorem sqrt_sumsq_eq (y x : ℝ) (hx : x ≠ 0) :
    Real.sqrt (x * x + y * y) = |x| * Real.sqrt (1 + (y / x) ^ 2) := by
  have e : x * x + y * y = x ^ 2 * (1 + (y / x) ^ 2) := by
    field_simp
    ring
  rw [e, Real.sqrt_mul (sq_nonneg x), Real.sqrt_sq_eq_abs]

/-- The normalising factor of `cos (arctan t)` and `sin (arctan t)` is positive. -/
theorem sqrt_one_add_sq_pos (t : ℝ) : 0 < Real.sqrt (1 + t ^ 2) :=
  Real.sqrt_pos.mpr (by positivity)

/-- The real two-argument arctangent is the polar angle of the point `(x, y)`:
with `r` the distance from the origin, `x = r cos θ` and `y = r sin θ`.  With the
range `(-π, π]` this fixes `atan2 y x` for every point other than the origin. -/
theorem atan2_polar (y x : ℝ) :
    Real.sqrt (x * x + y * y) * Real.cos (atan2 y x) = x ∧
      Real.sqrt (x * x + y * y) * Real.sin (atan2 y x) = y := by
  unfold atan2
  split_ifs with h1 h2 h3 h4 h5
  · have hs := sqrt_one_add_sq_pos (y / x)
    rw [sqrt_sumsq_eq y x h1.ne', abs_of_pos h1, Real.cos_arctan, Real.sin_arctan]
    constructor
    · field_simp
    · field_simp
  · have hs := sqrt_one_add_sq_pos (y / x)
    have hx0 : x ≠ 0 := h2.ne
    rw [sqrt_sumsq_eq y x h2.ne, abs_of_neg h2, Real.cos_add_pi, Real.sin_add_pi,
      Real.cos_arctan, Real.sin_arctan]
    generalize Real.sqrt (1 + (y / x) ^ 2) = s at hs
    have hs0 : s ≠ 0 := hs.ne'
    constructor
    · field_simp
    · field_simp
  · have hs := sqrt_one_add_sq_pos (y / x)
    have hx0 : x ≠ 0 := h2.ne
    rw [sqrt_sumsq_eq y x h2.ne, abs_of_neg h2, Real.cos_sub_pi, Real.sin_sub_pi,
      Real.cos_arctan, Real.sin_arctan]
    generalize Real.sqrt (1 + (y / x) ^ 2) = s at hs
    have hs0 : s ≠ 0 := hs.ne'
    constructor
    · field_simp
    · field_simp
  · have hx : x = 0 := le_antisymm (not_lt.mp h1) (not_lt.mp h2)
    subst hx
    simp [Real.sqrt_mul_self h4.le]
  · have hx : x = 0 := le_antisymm (not_lt.mp h1) (not_lt.mp h2)
    subst hx
    have e : y * y = (-y) * (-y) := by ring
    simp only [mul_zero, zero_add, Real.cos_neg, Real.cos_pi_div_two, Real.sin_neg,
      Real.sin_pi_div_two, true_and]
    rw [e, Real.sqrt_mul_self (neg_nonneg.mpr h5.le)]
    ring
  · have hx : x = 0 := le_antisymm (not_lt.mp h1) (not_lt.mp h2)
    have hy : y = 0 := le_antisymm (not_lt.mp h4) (not_lt.mp h5)
    subst hx hy
    simp

end std

namespace math

namespace Complex

/-! ## Division and multiplication -/

/-- C1: division/multiplication round trip.  Reading the components as real
numbers, for every `a` and every `b` with `b.length() != 0`, `(a / b) * b`
equals `a` (both components). -/
theorem div_mul_round_trip (a b : Complex ℝ) (hb : b.length Real.sqrt ≠ 0) :
    operator_mul (operator_div Real.sqrt a b) b = a := by
  have hs := sumsq_ne_zero_of_length_ne_zero b hb
  obtain ⟨ar, ai⟩ := a
  obtain ⟨br, bi⟩ := b
  simp only [operator_div, operator_mul, Complex2, length_mul_length, neg_one_lit] at hs ⊢
  congr 1
  · field_simp
    ring
  · field_simp
    ring

/-- Witness for C1 at `a = (1, 2)`, `b = (3, 4)`, whose length is `5`. -/
theorem div_mul_round_trip_witness :
    length Real.sqrt (Complex2 (3 : ℝ) 4) ≠ 0 ∧
      operator_mul (operator_div Real.sqrt (Complex2 (1 : ℝ) 2) (Complex2 3 4)) (Complex2 3 4)
        = Complex2 1 2 :=
  have h : length Real.sqrt (Complex2 (3 : ℝ) 4) ≠ 0 := by
    have e : ((3 : ℝ) * 3 + 4 * 4) = 5 * 5 := by norm_num
    simp only [length, Complex2, e]
    rw [Real.sqrt_mul_self (by norm_num)]
    norm_num
  ⟨h, div_mul_round_trip (Complex2 1 2) (Complex2 3 4) h⟩

/-- C2: for every `a` and `b`, `a / b` equals `a * inverse(b)` with
`inverse(b) = (b.real / L, -b.imag / L)` and `L = b.length() * b.length()`. -/
theorem div_eq_mul_inverse (a b : Complex ℝ) :
    operator_div Real.sqrt a b = operator_mul a (inverse_spec Real.sqrt b) := by
  simp only [operator_div, inverse_spec, Complex2, neg_one_lit, neg_one_mul]

/-- C3: `a * b` is the standard complex product: real part
`a.real*b.real - a.imag*b.imag`, imaginary part `a.real*b.imag + a.imag*b.real`.
The operands are the arguments of a pure function (the C++ member is `const`
and takes `const Complex&`), so they are the same values after the call. -/
theorem mul_components (a b : Complex ℝ) :
    (operator_mul a b).real = a.real * b.real - a.imag * b.imag ∧
      (operator_mul a b).imag = a.real * b.imag + a.imag * b.real :=
  ⟨rfl, rfl⟩

/-- C4: Complex-with-Complex addition and multiplication are commutative:
`a + b` equals `b + a` and `a * b` equals `b * a`, component-wise. -/
theorem add_mul_comm (a b : Complex ℝ) :
    operator_add a b = operator_add b a ∧ operator_mul a b = operator_mul b a := by
  constructor
  · simp only [operator_add, Complex2, add_comm]
  · simp only [operator_mul, Complex2]
    congr 1
    · ring
    · ring

/-! ## Conjugate, length, angle -/

/-- C5: `conjugate()` returns `(real, -imag)` and conjugating twice gives the
number back, component-wise. -/
theorem conjugate_conjugate (z : Complex ℝ) :
    z.conjugate = Complex2 z.real (-z.imag) ∧ z.conjugate.conjugate = z := by
  obtain ⟨r, i⟩ := z
  simp [conjugate, Complex2, real, imag, neg_one_lit]

/-- C6: `length()` equals `sqrt(real()^2 + imag()^2)`, it is never negative,
and `Complex(3.0, 4.0).length()` is `5.0`. -/
theorem length_spec :
    (∀ z : Complex ℝ,
        z.length Real.sqrt = Real.sqrt (z.real ^ 2 + z.imag ^ 2) ∧ 0 ≤ z.length Real.sqrt) ∧
      length Real.sqrt (Complex2 (3.0 : ℝ) 4.0) = 5.0 := by
  refine ⟨fun z => ⟨?_, Real.sqrt_nonneg _⟩, ?_⟩
  · simp only [length, real, imag, sq]
  · have e : ((3.0 : ℝ) * 3.0 + 4.0 * 4.0) = 5.0 * 5.0 := by norm_num
    simp only [length, Complex2, e]
    exact Real.sqrt_mul_self (by norm_num)

end Complex

end math

namespace math

namespace Complex

/-- C7: `angle()` equals `atan2(imag(), real())`, the imaginary part being the
first argument and the real part the second, and the value lies in `(-π, π]`. -/
theorem angle_spec (z : Complex ℝ) :
    z.angle std.atan2 = std.atan2 z.imag z.real ∧
      -Real.pi < z.angle std.atan2 ∧ z.angle std.atan2 ≤ Real.pi :=
  ⟨rfl, std.atan2_mem_range z._imag z._real⟩

/-! ## Constructors and accessors -/

/-- C8: the single-scalar constructor copies its argument into both
components: `Complex(v).real()` and `Complex(v).imag()` are both `v`; the
result is the real-only number `(v, 0)` only when `v` is `0`. -/
theorem scalar_ctor_replicates (v : ℝ) :
    (Complex1 v).real = v ∧ (Complex1 v).imag = v ∧ (Complex1 v = Complex2 v 0 ↔ v = 0) := by
  refine ⟨rfl, rfl, ?_⟩
  simp [Complex1, Complex2]

/-- C9: the two-scalar constructor and the accessors round-trip:
`Complex(r, i).real()` is `r` and `Complex(r, i).imag()` is `i`. -/
theorem pair_ctor_accessors (r i : ℝ) :
    (Complex2 r i).real = r ∧ (Complex2 r i).imag = i :=
  ⟨rfl, rfl⟩

/-! ## Addition -/

/-- C10: `a + b` equals `(a.real + b.real, a.imag + b.imag)`, and
`Complex(1.0, 2.0) + Complex(3.0, -1.0)` equals `Complex(4.0, 1.0)`.  The
operands are the arguments of a pure function (the C++ member is `const` and
takes `const Complex&`), so they are the same values after the call. -/
theorem add_components :
    (∀ a b : Complex ℝ, operator_add a b = Complex2 (a.real + b.real) (a.imag + b.imag)) ∧
      operator_add (Complex2 (1.0 : ℝ) 2.0) (Complex2 3.0 (-1.0)) = Complex2 4.0 1.0 := by
  refine ⟨fun a b => rfl, ?_⟩
  simp only [operator_add, Complex2]
  congr 1 <;> norm_num

end Complex

end math

namespace math

namespace Complex

/-! ## The constant `I`, the zero value -/

/-- C11: the constant `I` is the value `(0, 1)`, and `I * I` is `(-1, 0)`,
component-wise. -/
theorem I_value_and_square :
    (I : Complex ℝ) = Complex2 0 1 ∧ operator_mul (I : Complex ℝ) I = Complex2 (-1) 0 := by
  have e : (I : Complex ℝ) = Complex2 0 1 := by
    simp only [I, Complex2]
    congr 1 <;> norm_num
  refine ⟨e, ?_⟩
  rw [e]
  simp only [operator_mul, Complex2]
  congr 1 <;> norm_num

/-- C12: `Complex(1.0, 0.0) * I` equals `Complex(0.0, 1.0)`. -/
theorem one_mul_I :
    operator_mul (Complex2 (1.0 : ℝ) 0.0) I = Complex2 0.0 1.0 := by
  simp only [operator_mul, I, Complex2]
  congr 1 <;> norm_num

/-- C13: the zero value has length exactly zero: `Complex(0.0, 0.0).length()`
is `0.0`, and so is the length of the default-constructed `Complex()`, whose
components are both `0.0`. -/
theorem zero_length :
    length Real.sqrt (Complex2 (0.0 : ℝ) 0.0) = 0.0 ∧
      (Complex0 : Complex ℝ).real = 0.0 ∧ (Complex0 : Complex ℝ).imag = 0.0 ∧
      length Real.sqrt (Complex0 : Complex ℝ) = 0.0 := by
  have z : (0.0 : ℝ) = 0 := by norm_num
  refine ⟨?_, rfl, rfl, ?_⟩
  · simp only [length, Complex2, z, mul_zero, add_zero, Real.sqrt_zero]
  · simp only [length, Complex0, z, mul_zero, add_zero, Real.sqrt_zero]

/-! ## Scalar overloads and compound assignments -/

/-- C15: Complex-plus-scalar adds the scalar to both components: `a + s` equals
`(a.real + s, a.imag + s)`, which is `a + Complex(s)` under the single-scalar
constructor.  The receiver is the argument of a pure function (the member is
declared `const`), so it is the same value after the call. -/
theorem add_scalar_components (a : Complex ℝ) (s : ℝ) :
    operator_add_scalar a s = Complex2 (a.real + s) (a.imag + s) ∧
      operator_add_scalar a s = operator_add a (Complex1 s) :=
  ⟨rfl, rfl⟩

/-- C16: each compound assignment (`+=`, `-=`, `*=`, `/=`, with a Complex or a
scalar right-hand operand) leaves the receiver equal to the corresponding
binary operator applied to the receiver's old value and the operand, and the
value read through the returned reference is the mutated receiver. -/
theorem compound_assignment_spec (a b : Complex ℝ) (s : ℝ) :
    ((operator_add_assign a b).receiver = operator_add a b ∧
        (operator_add_assign a b).returned = (operator_add_assign a b).receiver) ∧
      ((operator_add_assign_scalar a s).receiver = operator_add_scalar a s ∧
        (operator_add_assign_scalar a s).returned = (operator_add_assign_scalar a s).receiver) ∧
      ((operator_sub_assign a b).receiver = operator_sub a b ∧
        (operator_sub_assign a b).returned = (operator_sub_assign a b).receiver) ∧
      ((operator_sub_assign_scalar a s).receiver = operator_sub_scalar a s ∧
        (operator_sub_assign_scalar a s).returned = (operator_sub_assign_scalar a s).receiver) ∧
      ((operator_mul_assign a b).receiver = operator_mul a b ∧
        (operator_mul_assign a b).returned = (operator_mul_assign a b).receiver) ∧
      ((operator_mul_assign_scalar a s).receiver = operator_mul_scalar a s ∧
        (operator_mul_assign_scalar a s).returned = (operator_mul_assign_scalar a s).receiver) ∧
      ((operator_div_assign Real.sqrt a b).receiver = operator_div Real.sqrt a b ∧
        (operator_div_assign Real.sqrt a b).returned
          = (operator_div_assign Real.sqrt a b).receiver) ∧
      ((operator_div_assign_scalar a s).receiver = operator_div_scalar a s ∧
        (operator_div_assign_scalar a s).returned = (operator_div_assign_scalar a s).receiver) :=
  ⟨⟨rfl, rfl⟩, ⟨rfl, rfl⟩, ⟨rfl, rfl⟩, ⟨rfl, rfl⟩, ⟨rfl, rfl⟩, ⟨rfl, rfl⟩, ⟨rfl, rfl⟩, ⟨rfl, rfl⟩⟩

/-! ## Consequences for division, conjugate and length -/

/-- C17: for every `a` and every `b` other than `(0, 0)`, the
inverse-then-multiply `a / b` is the textbook quotient
`((a.real*b.real + a.imag*b.imag) / d, (a.imag*b.real - a.real*b.imag) / d)`
with `d = b.real^2 + b.imag^2`. -/
theorem div_eq_quotient_textbook (a b : Complex ℝ) (hb : b ≠ Complex2 0 0) :
    operator_div Real.sqrt a b = quotient_textbook a b := by
  obtain ⟨ar, ai⟩ := a
  obtain ⟨br, bi⟩ := b
  simp only [operator_div, operator_mul, quotient_textbook, Complex2, length_mul_length,
    neg_one_lit]
  congr 1
  · ring
  · ring

/-- Witness for C17 at `a = (1, 2)`, `b = (3, 4)`. -/
theorem div_eq_quotient_textbook_witness :
    Complex2 (3 : ℝ) 4 ≠ Complex2 0 0 ∧
      operator_div Real.sqrt (Complex2 (1 : ℝ) 2) (Complex2 3 4)
        = quotient_textbook (Complex2 1 2) (Complex2 3 4) :=
  have h : Complex2 (3 : ℝ) 4 ≠ Complex2 0 0 := by
    simp [Complex2]
  ⟨h, div_eq_quotient_textbook (Complex2 1 2) (Complex2 3 4) h⟩

/-- C18, as amended: reading the components as real numbers,
`z * z.conjugate()` has real part `z.real^2 + z.imag^2`, which is the square of
`z.length()`, and imaginary part exactly `0`. -/
theorem mul_conjugate (z : Complex ℝ) :
    (operator_mul z z.conjugate).real = z.real ^ 2 + z.imag ^ 2 ∧
      (operator_mul z z.conjugate).real = (z.length Real.sqrt) ^ 2 ∧
      (operator_mul z z.conjugate).imag = 0 := by
  have hl := length_mul_length z
  obtain ⟨r, i⟩ := z
  simp only [operator_mul, conjugate, Complex2, real, imag, neg_one_lit, sq] at hl ⊢
  refine ⟨by ring, ?_, by ring⟩
  rw [hl]
  ring

/-- C19: `length()` is multiplicative: `(a * b).length()` equals
`a.length() * b.length()`. -/
theorem length_mul (a b : Complex ℝ) :
    (operator_mul a b).length Real.sqrt = a.length Real.sqrt * b.length Real.sqrt := by
  obtain ⟨ar, ai⟩ := a
  obtain ⟨br, bi⟩ := b
  simp only [operator_mul, length, Complex2]
  rw [← Real.sqrt_mul (add_nonneg (mul_self_nonneg ar) (mul_self_nonneg ai))]
  congr 1
  ring

/-- C20, as amended: reading the components as real numbers, `length()`
vanishes only at zero: `z.length()` is `0` exactly when `z.real()` and
`z.imag()` are both `0`, so the precondition `b.length() != 0` of division
says that `b` is not the zero value. -/
theorem length_eq_zero_iff (z : Complex ℝ) :
    (z.length Real.sqrt = 0 ↔ z.real = 0 ∧ z.imag = 0) ∧
      (z.length Real.sqrt ≠ 0 ↔ z ≠ Complex2 0 0) := by
  obtain ⟨r, i⟩ := z
  have key : length Real.sqrt (Complex.mk r i) = 0 ↔ r = 0 ∧ i = 0 := by
    simp only [length]
    rw [Real.sqrt_eq_zero (add_nonneg (mul_self_nonneg r) (mul_self_nonneg i))]
    exact mul_self_add_mul_self_eq_zero
  refine ⟨key, ?_⟩
  rw [Ne, key]
  simp [Complex2]

end Complex

end math

namespace ieee

namespace Double

/-! ## The arithmetic of `double` -/

/-- A product with NaN on the right is NaN. -/
theorem mul_nan (x : Double) : x * nan = nan := by
  cases x <;> rfl

/-- The literals of `complex.cpp`: `0.0` is `+0`, `1.0` is `2^1074` units and
`-1.0` its negative. -/
theorem lit_values :
    (0.0 : Double) = fin false 0 ∧ (1.0 : Double) = fin false (2 ^ 1074) ∧
      (-1.0 : Double) = fin true (2 ^ 1074) := by
  decide!

/-- Rounding at work: `0.1 + 0.2` is `0x1.3333333333334p-2`, not `0.3`; the
quotient `1.0 / 3.0` is `0x1.5555555555555p-2`; the largest double added to
itself overflows to `+∞`; half the smallest subnormal rounds to `+0`. -/
theorem rounding_examples :
    (0.1 + 0.2 : Double) = fin false (0x13333333333334 * 2 ^ 1020) ∧
      (0.1 + 0.2 : Double) ≠ 0.3 ∧
      (1.0 / 3.0 : Double) = fin false (0x15555555555555 * 2 ^ 1020) ∧
      fin false ((2 ^ 53 - 1) * 2 ^ 2045) + fin false ((2 ^ 53 - 1) * 2 ^ 2045) = inf false ∧
      fin false 1 / (2.0 : Double) = fin false 0 := by
  decide!

/-- The integer square root of `2^105`, the scaled radicand of `sqrt(2.0)`. -/
theorem sqrt_two_pow_105 : Nat.sqrt (2 ^ 105) = 6369051672525772 :=
  (Nat.eq_sqrt.mpr ⟨by decide!, by decide!⟩).symm

/-- The double `sqrt(2.0)` is `0x1.6A09E667F3BCDp+0`. -/
theorem sqrt_two : sqrt (fin false (2 ^ 1075)) = fin false (6369051672525773 * 2 ^ 1022) := by
  have h1 : excessPairs (2 ^ 1075 * 2 ^ 1074) (2 ^ 1075 * 2 ^ 1074) = 1022 := by decide!
  have h2 : 2 ^ 1075 * 2 ^ 1074 / 4 ^ 1022 = 2 ^ 105 := by decide!
  have h3 : ¬ (2 ^ 1075 = 0) := by decide!
  simp only [sqrt, h1, h2, h3, sqrt_two_pow_105, if_false, Bool.false_eq_true]
  decide!

end Double

end ieee

namespace math

namespace Complex

open ieee ieee.Double

/-! ## Division by zero, rounding, overflow and underflow in `double` -/

/-- C14: dividing any Complex `a` (whatever its components, finite or not) by
`Complex(0.0, 0.0)` returns a value whose two components are non-finite; in fact
both are NaN.  The operator is a total function: a value is returned and no
error is signalled. -/
theorem div_by_zero_non_finite (a : Complex Double) :
    (isFinite (operator_div Double.sqrt a (Complex2 0.0 0.0)).real = false ∧
        isFinite (operator_div Double.sqrt a (Complex2 0.0 0.0)).imag = false) ∧
      (operator_div Double.sqrt a (Complex2 0.0 0.0)).real = nan ∧
      (operator_div Double.sqrt a (Complex2 0.0 0.0)).imag = nan := by
  have h1 : (0.0 : Double)
      / (Double.sqrt (0.0 * 0.0 + 0.0 * 0.0) * Double.sqrt (0.0 * 0.0 + 0.0 * 0.0))
      = nan := by decide!
  have h2 : -1.0 * (0.0 : Double)
      / (Double.sqrt (0.0 * 0.0 + 0.0 * 0.0) * Double.sqrt (0.0 * 0.0 + 0.0 * 0.0))
      = nan := by decide!
  simp only [operator_div, operator_mul, length, Complex2, real, imag, h1, h2, mul_nan]
  exact ⟨⟨rfl, rfl⟩, rfl, rfl⟩

/-- Counterexample to C18 as stated, in double arithmetic.  At
`z = (2^600, 2^600)` (a double: `2^1674` units) the products `re * (-im)` and
`im * re` overflow to `-∞` and `+∞`, so the imaginary part of
`z * z.conjugate()` is NaN, not `0`.  At `z = (1.0, 1.0)` the real part is
`2.0` while `length() * length()` is `2.0000000000000004`, because `sqrt(2.0)`
is rounded. -/
theorem mul_conjugate_fails_on_doubles :
    (representable (fin false (2 ^ 1674)) = true ∧
        (operator_mul (Complex2 (fin false (2 ^ 1674)) (fin false (2 ^ 1674)))
          (conjugate (Complex2 (fin false (2 ^ 1674)) (fin false (2 ^ 1674))))).imag = nan ∧
        isZero (operator_mul (Complex2 (fin false (2 ^ 1674)) (fin false (2 ^ 1674)))
          (conjugate (Complex2 (fin false (2 ^ 1674)) (fin false (2 ^ 1674))))).imag = false) ∧
      ((operator_mul (Complex2 (1.0 : Double) 1.0) (conjugate (Complex2 1.0 1.0))).real = 2.0 ∧
        length Double.sqrt (Complex2 (1.0 : Double) 1.0)
            * length Double.sqrt (Complex2 (1.0 : Double) 1.0)
          = fin false ((2 ^ 52 + 1) * 2 ^ 1023) ∧
        length Double.sqrt (Complex2 (1.0 : Double) 1.0)
            * length Double.sqrt (Complex2 (1.0 : Double) 1.0)
          ≠ (operator_mul (Complex2 (1.0 : Double) 1.0) (conjugate (Complex2 1.0 1.0))).real) := by
  have hsum : (1.0 : Double) * 1.0 + 1.0 * 1.0 = fin false (2 ^ 1075) := by decide!
  have hlen : length Double.sqrt (Complex2 (1.0 : Double) 1.0)
      = fin false (6369051672525773 * 2 ^ 1022) := by
    simp only [length, Complex2, hsum, sqrt_two]
  rw [hlen]
  decide!

/-- Counterexample to C20 as stated, in double arithmetic.  At
`z = (2^-600, 0.0)` (a double: `2^474` units) the square `re * re` underflows to
`0`, so `z.length() == 0` although `z.real() != 0`; dividing `(1.0, 1.0)` by this
`z` gives a non-finite real part. -/
theorem length_zero_at_nonzero_double :
    representable (fin false (2 ^ 474)) = true ∧
      isZero (length Double.sqrt (Complex2 (fin false (2 ^ 474)) 0.0)) = true ∧
      isZero (Complex2 (fin false (2 ^ 474)) (0.0 : Double)).real = false ∧
      isFinite (operator_div Double.sqrt (Complex2 1.0 1.0)
        (Complex2 (fin false (2 ^ 474)) 0.0)).real = false := by
  decide!

end Complex

end math
